import Mathlib

/-!
Verification development for the SyncFlow two-way synchronization engine.

The definitions below are shallow embeddings of the Python source:
  * `backend/core/bidirectional.py` — `_normalize_bytes`, `_meta_changed`,
    `_is_suppressed` / `_mark_suppressed`, `_on_local_event` / `_on_remote_event`,
    `_scan_endpoint` (missing-path detection), `_prepare_sync_task`,
    `_sync_side`, `_initial_sync`.
  * `backend/utils/file_utils.py` — `should_exclude`, `should_include_extension`.
  * `backend/core/transfer.py` — `SSHTransfer.delete_file`.
  * `backend/core/sync_engine.py` — `LocalSyncEngine._handle_delete`.

Modelling conventions: Python byte strings are `List Nat`; timestamps
(`datetime` values) are `Nat`; a Python meta dict `{'size','mtime','hash'?}`
is `Meta` and an empty/missing meta dict is `none : Option Meta`;
filesystem side effects performed by an operation are recorded as an
ordered `List` of `Effect` values; fallible endpoint operations are
oracles of type `Except String Unit` supplied through `SyncEnv`.
Paths are POSIX-style relative paths (on the POSIX host `os.sep = '/'`
and `pathlib` normalization is the identity on the clean relative paths
the engine produces).
-/

namespace SyncFlow

/-- The two sides of a two-way task (`'a'` / `'b'` in the source). -/
inductive Side where
  | a
  | b
  deriving DecidableEq, Repr

/-- The opposite side: `other = 'b' if side == 'a' else 'a'`. -/
def Side.other : Side → Side
  | .a => .b
  | .b => .a

/-- A file meta as stored in the state cache: `{'size': ..., 'mtime': ..., 'hash'?: ...}`.
The hash is optional, matching the lazily-populated `'hash'` key. -/
structure Meta where
  size : Nat
  mtime : Nat
  hash : Option String
  deriving DecidableEq, Repr

/-- A meta as produced by endpoint enumeration / `get_meta`: only
`{'size': ..., 'mtime': ...}`, never a hash (`bidirectional.py` lines 90–95, 206). -/
structure ListingMeta where
  size : Nat
  mtime : Nat
  deriving DecidableEq, Repr

/-- Converting an enumerated meta into a stored meta adds no hash. -/
def ListingMeta.toMeta (m : ListingMeta) : Meta :=
  { size := m.size, mtime := m.mtime, hash := none }

/-- One row of the per-path state cache (`_row_to_state` shape). `none`
for a meta models the empty dict `{}` (both are falsy in the source). -/
structure FileState where
  a_meta : Option Meta
  b_meta : Option Meta
  a_deleted : Bool
  b_deleted : Bool
  a_seen_at : Option Nat
  b_seen_at : Option Nat
  last_winner : Option Side
  last_sync_at : Option Nat
  deriving DecidableEq, Repr

/-- The per-side meta field of a row. -/
def FileState.meta (st : FileState) : Side → Option Meta
  | .a => st.a_meta
  | .b => st.b_meta

/-- The per-side tombstone flag of a row. -/
def FileState.deleted (st : FileState) : Side → Bool
  | .a => st.a_deleted
  | .b => st.b_deleted

/-- The per-side observation timestamp of a row. -/
def FileState.seenAt (st : FileState) : Side → Option Nat
  | .a => st.a_seen_at
  | .b => st.b_seen_at

/-- The all-empty row created on a state-cache miss (`_handle_meta_change`). -/
def FileState.zero : FileState :=
  { a_meta := none, b_meta := none, a_deleted := false, b_deleted := false,
    a_seen_at := none, b_seen_at := none, last_winner := none, last_sync_at := none }

/-! ## EOL normalization (`_normalize_bytes`, `bidirectional.py` lines 26–33)

Python `bytes` become `List Nat` (byte values); `b'\r'` is 13 and `b'\n'` is 10.
`bytes.replace` scans left to right without overlap, which for the patterns
used here is exactly the structural recursion below. -/

/-- The task's EOL policy: `'lf' | 'crlf' | 'keep'`. -/
inductive EolPolicy where
  | lf
  | crlf
  | keep
  deriving DecidableEq, Repr

/-- `content.replace(b'\r\n', b'\n')`: fold each CRLF pair into LF. -/
def replaceCrlfWithLf : List Nat → List Nat
  | [] => []
  | [c] => [c]
  | c1 :: c2 :: rest =>
    if c1 = 13 ∧ c2 = 10 then 10 :: replaceCrlfWithLf rest
    else c1 :: replaceCrlfWithLf (c2 :: rest)
termination_by l => l.length

/-- `normalized.replace(b'\r', b'\n')`: a single-byte pattern replace is a map. -/
def replaceCrWithLf (l : List Nat) : List Nat :=
  l.map fun c => if c = 13 then 10 else c

/-- `normalized.replace(b'\n', b'\r\n')`: expand each LF into CRLF. -/
def replaceLfWithCrlf : List Nat → List Nat
  | [] => []
  | c :: rest =>
    if c = 10 then 13 :: 10 :: replaceLfWithCrlf rest
    else c :: replaceLfWithCrlf rest

/-- `_normalize_bytes(content, target)` from `bidirectional.py`. -/
def normalize_bytes (content : List Nat) (target : EolPolicy) : List Nat :=
  match target with
  | .keep => content
  | .lf => replaceCrWithLf (replaceCrlfWithLf content)
  | .crlf => replaceLfWithCrlf (replaceCrWithLf (replaceCrlfWithLf content))

/-! ## `_meta_changed` (`bidirectional.py` lines 771–780) -/

/-- `_meta_changed(old_meta, new_meta)`. `none` models the falsy empty dict;
an empty-string hash cannot occur (hex digests are non-empty), so hash
truthiness is `Option.isSome`. -/
def meta_changed : Option Meta → Option Meta → Bool
  | none, none => false
  | none, some _ => true
  | some _, none => true
  | some o, some n =>
    match o.hash, n.hash with
    | some oh, some nh => oh ≠ nh
    | _, _ => o.size ≠ n.size ∨ o.mtime ≠ n.mtime

/-! ## Suppression window (`_is_suppressed` / `_mark_suppressed`,
`bidirectional.py` lines 334–335, 362–372) -/

/-- `self._suppress_window = 2` (seconds). -/
def suppressWindow : Nat := 2

/-- The `self._suppress` map: per side, rel-path → expiry timestamp. -/
def SuppressMap := Side → String → Option Nat

/-- `_mark_suppressed(side, rel_path)`: store `time.time() + self._suppress_window`. -/
def markSuppressed (m : SuppressMap) (side : Side) (relPath : String) (now : Nat) :
    SuppressMap :=
  fun s p => if s = side ∧ p = relPath then some (now + suppressWindow) else m s p

/-- `_is_suppressed(side, rel_path)`: absent entry → not suppressed; an entry
with `time.time() > ts` has expired (and is popped); otherwise suppressed. -/
def isSuppressed (m : SuppressMap) (side : Side) (relPath : String) (now : Nat) : Bool :=
  match m side relPath with
  | none => false
  | some ts => !(decide (now > ts))

/-! ## Watcher entry points (`_on_local_event` lines 638–668,
`_on_remote_event` lines 548–567)

Both handlers turn a watcher event into calls of `_handle_meta_change`; we
record those calls as `Notice`s. A suppressed `(side, rel_path)` returns
before producing any notice. The absolute-to-relative path translation and
`get_meta` lookups are supplied as inputs (`relSrc`/`relDest` already
relative, `srcMeta`/`destMeta` the `get_meta` results). -/

/-- Watcher event kinds. -/
inductive EventKind where
  | created
  | modified
  | deleted
  | moved
  deriving DecidableEq, Repr

/-- One `_handle_meta_change` invocation: side, rel-path, meta, deleted flag. -/
structure Notice where
  side : Side
  path : String
  meta : Option Meta
  isDeleted : Bool
  deriving DecidableEq, Repr

/-- `_on_local_event`: the list of `_handle_meta_change` calls it makes. -/
def onLocalEvent (m : SuppressMap) (side : Side) (now : Nat) (ev : EventKind)
    (relSrc : String) (relDest : Option String)
    (srcMeta destMeta : Option Meta) : List Notice :=
  if isSuppressed m side relSrc now then []
  else
    match ev with
    | .moved =>
      ⟨side, relSrc, none, true⟩ ::
        (match relDest, destMeta with
         | some d, some dm => [⟨side, d, some dm, false⟩]
         | _, _ => [])
    | .deleted => [⟨side, relSrc, none, true⟩]
    | _ =>
      match srcMeta with
      | some sm => [⟨side, relSrc, some sm, false⟩]
      | none => []

/-- `_on_remote_event`: the list of `_handle_meta_change` calls it makes. -/
def onRemoteEvent (m : SuppressMap) (side : Side) (now : Nat) (ev : EventKind)
    (relPath : String) (meta : Option Meta) : List Notice :=
  if isSuppressed m side relPath now then []
  else
    match ev with
    | .deleted => [⟨side, relPath, none, true⟩]
    | _ =>
      match meta with
      | some sm => [⟨side, relPath, some sm, false⟩]
      | none => []

/-! ## Remote-poll missing-path detection (`_scan_endpoint` lines 623–635) -/

/-- The guard at lines 632–634: a missing path is turned into a deletion
notice only when the scanned side already has evidence for it
(non-empty side meta, a side tombstone, or a side `seen_at`). -/
def missingEvidence (st : FileState) (side : Side) : Bool :=
  (st.meta side).isSome || st.deleted side || (st.seenAt side).isSome

/-- The deletion-detection loop of `_scan_endpoint`: from the state-cache
snapshot, the paths that were known but did not appear in the scan, filtered
by `missingEvidence`; each produces a `deleted=True` meta-change. -/
def scanMissingDeletes (snapshot : List (String × FileState)) (side : Side)
    (seenPaths : List String) : List String :=
  (snapshot.filter fun pr =>
    !(seenPaths.contains pr.1) && missingEvidence pr.2 side).map Prod.fst

/-! ## Sync decision (`_prepare_sync_task` lines 876–906) -/

/-- Truthiness of `seen_at and (not last_sync or seen_at > last_sync)`
(a `datetime` is always truthy, so `none` is the only falsy case). -/
def seenChanged : Option Nat → Option Nat → Bool
  | none, _ => false
  | some _, none => true
  | some s, some l => decide (s > l)

/-- The winner/loser pair returned by `_prepare_sync_task`. -/
structure SyncPlan where
  winner : Side
  loser : Side
  deriving DecidableEq, Repr

/-- `_prepare_sync_task(rel_path)`: `initDone` models `_init_done.is_set()`;
`st` is the state-cache lookup. -/
def prepareSyncTask (initDone : Bool) (st : Option FileState) : Option SyncPlan :=
  if !initDone then none
  else
    match st with
    | none => none
    | some state =>
      let aCh := seenChanged state.a_seen_at state.last_sync_at
      let bCh := seenChanged state.b_seen_at state.last_sync_at
      if !aCh && !bCh then none
      else
        let winner : Side :=
          if aCh && bCh then
            if state.a_seen_at.getD 0 ≥ state.b_seen_at.getD 0 then .a else .b
          else if aCh then .a else .b
        some ⟨winner, winner.other⟩

/-! ## `_sync_side` (`bidirectional.py` lines 922–991)

The dispatcher worker. Filesystem calls on the loser endpoint are recorded
in program order as `Effect`s; the outcome of each fallible call
(`move_to_trash`, `backup_file`, `_copy_between`) is an oracle in `SyncEnv`,
an `.error e` modelling the call raising with message `e = str(exception)`.
An exception jumps to the `except` block: the state row is not touched and a
`status='failed'` log row is appended. -/

/-- A filesystem / bookkeeping action performed by `_sync_side`, in order.
`copyFile` is `_copy_between`, which writes the file on the loser endpoint
in every one of its branches (copy, upload, download or `write_bytes`). -/
inductive Effect where
  | moveToTrash (relPath : String)
  | backupFile (relPath : String)
  | copyFile (relPath : String)
  | markSuppressed (side : Side) (relPath : String)
  deriving DecidableEq, Repr

/-- A `sync_logs` row as appended by `_sync_side` (`create_log` fields that
the worker sets). -/
structure LogEntry where
  eventType : String
  filePath : String
  status : String
  errorMessage : Option String
  deriving DecidableEq, Repr

/-- Oracles for the fallible endpoint calls inside `_sync_side` and for the
post-copy re-stat (`get_meta`, hash-free) and `_compute_hash` (which returns
`None` instead of raising). -/
structure SyncEnv where
  trashResult : Except String Unit
  backupResult : Except String Unit
  copyResult : Except String Unit
  newLoserMeta : Option ListingMeta
  newHash : Option String
  deriving Repr

/-- `new_loser_meta = loser_ep.get_meta(...) or {}` followed by
`if new_loser_meta: ... new_loser_meta['hash'] = new_hash` (hash added only
when `_compute_hash` returned something). -/
def finishLoserMeta (lm : Option ListingMeta) (h : Option String) : Option Meta :=
  match lm with
  | none => none
  | some m => some { size := m.size, mtime := m.mtime, hash := h }

/-- The state commit at lines 956–964: set the loser's meta/tombstone,
`loser_seen_at = now`, `last_winner = winner`, `last_sync_at = now`. -/
def commitLoser (st : FileState) (loser : Side) (m : Option Meta) (d : Bool)
    (winner : Side) (now : Nat) : FileState :=
  match loser with
  | .a => { st with a_meta := m, a_deleted := d, a_seen_at := some now,
                    last_winner := some winner, last_sync_at := some now }
  | .b => { st with b_meta := m, b_deleted := d, b_seen_at := some now,
                    last_winner := some winner, last_sync_at := some now }

/-- The result of one `_sync_side` run: ordered effects, the state row after
the run, and the appended log row. -/
structure SyncOutcome where
  effects : List Effect
  state : FileState
  log : LogEntry
  deriving Repr

/-- The `except` branch: log `event_type='modified'`, `status='failed'`,
`error_message=str(e)`; the row is left as it was. -/
def failOutcome (fx : List Effect) (st : FileState) (relPath : String)
    (e : String) : SyncOutcome :=
  ⟨fx, st, ⟨"modified", relPath, "failed", some e⟩⟩

/-- `_sync_side(winner, loser, rel_path)` over the embedded state and oracles. -/
def syncSide (winner : Side) (relPath : String) (st : FileState) (env : SyncEnv)
    (now : Nat) : SyncOutcome :=
  let loser := winner.other
  let winnerMeta := st.meta winner
  let loserMeta := st.meta loser
  let winnerDeleted := st.deleted winner
  let loserDeleted := st.deleted loser
  if winnerDeleted then
    if !loserDeleted && loserMeta.isSome then
      match env.trashResult with
      | .error e => failOutcome [.moveToTrash relPath] st relPath e
      | .ok _ =>
        ⟨[.moveToTrash relPath, .markSuppressed loser relPath],
         commitLoser st loser none true winner now,
         ⟨"deleted", relPath, "success", none⟩⟩
    else
      ⟨[], commitLoser st loser none true winner now,
       ⟨"deleted", relPath, "success", none⟩⟩
  else
    let needBackup := loserMeta.isSome && !loserDeleted &&
      meta_changed loserMeta winnerMeta
    match (if needBackup then env.backupResult else .ok ()) with
    | .error e => failOutcome [.backupFile relPath] st relPath e
    | .ok _ =>
      let pre : List Effect := if needBackup then [.backupFile relPath] else []
      match env.copyResult with
      | .error e => failOutcome (pre ++ [.copyFile relPath]) st relPath e
      | .ok _ =>
        ⟨pre ++ [.copyFile relPath, .markSuppressed loser relPath],
         commitLoser st loser (finishLoserMeta env.newLoserMeta env.newHash)
           false winner now,
         ⟨"modified", relPath, "success", none⟩⟩

/-! ## `_initial_sync` (`bidirectional.py` lines 1031–1092) -/

/-- The loop body of `_initial_sync` for one `rel_path`: the arguments are
`a_files.get(rel_path)` and `b_files.get(rel_path)` (enumeration metas carry
no hash), the result the seeded row and the `_sync_side(winner, loser, ...)`
call made for it, if any. `none, none` cannot arise for a path in the union. -/
def initialSeed (aMeta bMeta : Option ListingMeta) (now : Nat) :
    Option (FileState × Option (Side × Side)) :=
  match aMeta, bMeta with
  | some am, none =>
    some ({ a_meta := some am.toMeta, b_meta := none,
            a_deleted := false, b_deleted := true,
            a_seen_at := some now, b_seen_at := none,
            last_winner := none, last_sync_at := none },
          some (.a, .b))
  | none, some bm =>
    some ({ a_meta := none, b_meta := some bm.toMeta,
            a_deleted := true, b_deleted := false,
            a_seen_at := none, b_seen_at := some now,
            last_winner := none, last_sync_at := none },
          some (.b, .a))
  | some am, some bm =>
    some ({ a_meta := some am.toMeta, b_meta := some bm.toMeta,
            a_deleted := false, b_deleted := false,
            a_seen_at := some now, b_seen_at := some now,
            last_winner := none, last_sync_at := some now },
          none)
  | none, none => none

/-- Association-list lookup standing in for `dict.get`. -/
def listLookup (l : List (String × ListingMeta)) (p : String) : Option ListingMeta :=
  match l.find? (fun pr => pr.1 = p) with
  | some pr => some pr.2
  | none => none

/-- `_initial_sync`: enumerate both endpoints, seed a row for every path in
the union, recording the `_sync_side` call made for one-sided paths. -/
def initialSync (aFiles bFiles : List (String × ListingMeta)) (now : Nat) :
    List (String × FileState × Option (Side × Side)) :=
  ((aFiles.map Prod.fst ++ bFiles.map Prod.fst).dedup).filterMap fun p =>
    (initialSeed (listLookup aFiles p) (listLookup bFiles p) now).map
      fun r => (p, r)

/-! ## Absent-target deletion no-ops (claim C10 sources) -/

/-- The possible results of the underlying remote `remove` call inside
`SSHTransfer.delete_file` (`transfer.py` lines 275–284). -/
inductive RemoveResult where
  | ok
  | fileNotFound
  | failed (msg : String)
  deriving DecidableEq, Repr

/-- `SSHTransfer.delete_file`: `FileNotFoundError` is swallowed (`pass`);
any other exception is re-raised as `IOError`. -/
def sshDeleteFile (removeResult : RemoveResult) : Except String Unit :=
  match removeResult with
  | .ok => .ok ()
  | .fileNotFound => .ok ()
  | .failed m => .error ("文件删除失败: " ++ m)

/-- The filesystem steps `LocalEndpoint.move_to_trash` performs
(`bidirectional.py` lines 114–121): nothing when the source is absent,
otherwise create the parent directory under the trash root and move. -/
inductive TrashStep where
  | ensureParentDir
  | moveFile
  deriving DecidableEq, Repr

/-- `LocalEndpoint.move_to_trash(rel_path, ts)` as its list of steps. -/
def localMoveToTrashSteps (srcExists : Bool) : List TrashStep :=
  if srcExists then [.ensureParentDir, .moveFile] else []

/-- `LocalSyncEngine._handle_delete` (`sync_engine.py` lines 207–213):
unlink only when the target exists. -/
def handleDeleteUnlinks (targetExists : Bool) : Bool :=
  targetExists

/-! ## Path filter (`file_utils.py` lines 11–67, `bidirectional.py` lines 54–61)

`fnmatch.fnmatch` on a POSIX host (where `os.path.normcase` is the identity,
so all glob comparisons are case-sensitive) is embedded as a direct
backtracking matcher. Character classes follow `fnmatch.translate`:
`[!...]` negates, a `]` directly after `[` (or `[!`) is a literal, an
unterminated `[` is a literal `[`, `x-y` inside a class is a code-point
range and a descending range matches nothing, a `-` first, last, or directly
after a range is a literal. The `*` handling (atomic earliest-occurrence
search of each fixed piece) recognizes the same language as plain
backtracking because the pattern after every interior fixed piece starts
with another `*`. -/

/-- Membership of one character in a bracket-class body (the text between
the brackets, negation marker already stripped). -/
def classMatch : List Char → Char → Bool
  | [], _ => false
  | x :: '-' :: y :: rest, c => (x ≤ c && c ≤ y) || classMatch rest c
  | x :: rest, c => (x = c) || classMatch rest c

/-- Class membership including the `!` negation marker. -/
def classMatchTop (stuff : List Char) (c : Char) : Bool :=
  match stuff with
  | '!' :: rest => !(classMatch rest c)
  | _ => classMatch stuff c

/-- Scan to the next `]`, returning the class body and the remainder. -/
def classSplitAux : List Char → Option (List Char × List Char)
  | [] => none
  | ']' :: rest => some ([], rest)
  | c :: rest =>
    match classSplitAux rest with
    | none => none
    | some (stuff, rem) => some (c :: stuff, rem)

/-- The bracket scan of `fnmatch.translate`: an optional leading `!` and
then an optional literal `]` are skipped before searching for the closing
`]`; `none` means no closing bracket (the `[` is then a literal). -/
def classSplit (l : List Char) : Option (List Char × List Char) :=
  match l with
  | '!' :: ']' :: rest =>
    match classSplitAux rest with
    | none => none
    | some (stuff, rem) => some ('!' :: ']' :: stuff, rem)
  | '!' :: rest =>
    match classSplitAux rest with
    | none => none
    | some (stuff, rem) => some ('!' :: stuff, rem)
  | ']' :: rest =>
    match classSplitAux rest with
    | none => none
    | some (stuff, rem) => some (']' :: stuff, rem)
  | _ => classSplitAux l

/-- Full-string glob match, the semantics of `fnmatch.fnmatchcase(s, p)`. -/
def globMatch (p s : List Char) : Bool :=
  match p, s with
  | [], s => s.isEmpty
  | '*' :: ps, s =>
    globMatch ps s ||
      (match s with
       | [] => false
       | _ :: s2 => globMatch ('*' :: ps) s2)
  | '?' :: ps, s =>
    (match s with
     | [] => false
     | _ :: s2 => globMatch ps s2)
  | '[' :: ps, s =>
    (match classSplit ps with
     | none =>
       match s with
       | [] => false
       | c :: s2 => (c = '[') && globMatch ps s2
     | some (stuff, rest) =>
       match s with
       | [] => false
       | c :: s2 => classMatchTop stuff c && globMatch rest s2)
  | ch :: ps, s =>
    match s with
    | [] => false
    | c :: s2 => (ch = c) && globMatch ps s2
termination_by (s.length, p.length)

/-- `fnmatch.fnmatch(s, pat)` on a POSIX host. -/
def fnmatchB (s pat : String) : Bool :=
  globMatch pat.toList s.toList

/-- `path_str.split(os.sep)` with `os.sep = '/'`. -/
def splitSegments (path : String) : List String :=
  path.splitOn "/"

/-- `Path(path).name`: the last path segment (clean relative paths). -/
def baseName (path : String) : String :=
  (splitSegments path).getLastD ""

/-- `rel_path.replace('\\', '/')`. -/
def toPosix (path : String) : String :=
  String.mk (path.toList.map fun c => if c = '\\' then '/' else c)

/-- `Path(name).suffix`: index of the last `'.'` in a name. -/
def lastDotIdx : List Char → Option Nat
  | [] => none
  | c :: rest =>
    match lastDotIdx rest with
    | some i => some (i + 1)
    | none => if c = '.' then some 0 else none

/-- `Path(name).suffix` over the name's characters: the part from the last
dot when that dot is neither first nor last, else empty. -/
def nameSuffix (nm : List Char) : List Char :=
  match lastDotIdx nm with
  | some i => if 0 < i ∧ i < nm.length - 1 then nm.drop i else []
  | none => []

/-- `file_path.suffix.lower()` for a relative path. -/
def lowerSuffix (path : String) : String :=
  String.mk ((nameSuffix (baseName path).toList).map Char.toLower)

/-- `should_exclude(file_path, exclude_patterns)` from `file_utils.py`:
per pattern, glob on the basename, verbatim segment membership, or glob on
the whole path. -/
def should_exclude (path : String) (excludePatterns : List String) : Bool :=
  excludePatterns.any fun pat =>
    fnmatchB (baseName path) pat ||
      (splitSegments path).contains pat ||
      fnmatchB path pat

/-- `should_include_extension(file_path, allowed_extensions)` from
`file_utils.py`: an empty allow-list admits everything, otherwise the
lowercased suffix must be listed. -/
def should_include_extension (path : String) (allowedExtensions : List String) : Bool :=
  if allowedExtensions.isEmpty then true
  else allowedExtensions.contains (lowerSuffix path)

/-- `LocalEndpoint._is_excluded` (`bidirectional.py` lines 56–61): a segment
equal to an internal (trash/backup) directory name, or `should_exclude`. -/
def isExcludedInternal (internalDirs excludePatterns : List String)
    (relPath : String) : Bool :=
  (splitSegments (toPosix relPath)).any (fun p => internalDirs.contains p) ||
    should_exclude relPath excludePatterns

/-- The complete path filter applied by `iter_files`: `_is_excluded` plus the
extension allow-list. `true` means the path is not synchronized. -/
def pathFilterExcludes (internalDirs excludePatterns allowedExtensions : List String)
    (relPath : String) : Bool :=
  isExcludedInternal internalDirs excludePatterns relPath ||
    !(should_include_extension relPath allowedExtensions)

/-- The filter rules as the specification words them (§4.1): (a) an internal
directory name among the segments; (b) some exclude pattern glob-matches the
basename, equals a segment verbatim, or glob-matches the whole path; (c) a
non-empty `allowed_extensions` not containing the lowercased suffix. Only
the extension clause lowercases anything. -/
def specPathExcluded (internalDirs excludePatterns allowedExtensions : List String)
    (relPath : String) : Prop :=
  (∃ seg ∈ splitSegments (toPosix relPath), seg ∈ internalDirs) ∨
  (∃ pat ∈ excludePatterns,
    fnmatchB (baseName relPath) pat = true ∨
    pat ∈ splitSegments relPath ∨
    fnmatchB relPath pat = true) ∨
  (allowedExtensions ≠ [] ∧ lowerSuffix relPath ∉ allowedExtensions)

/-! ## Specification-side predicates and helper lemmas -/

/-- `meta_changed` as claim C5 words it: hash comparison when both metas
carry hashes, `(size, mtime)` comparison otherwise, and absence of the meta
on either side counting as changed. -/
def claimMetaChanged : Option Meta → Option Meta → Bool
  | some o, some n =>
    match o.hash, n.hash with
    | some oh, some nh => oh ≠ nh
    | _, _ => o.size ≠ n.size ∨ o.mtime ≠ n.mtime
  | _, _ => true

/-- `meta_changed` as amended: hash comparison when both metas carry hashes,
`(size, mtime)` otherwise; absence on exactly one side counts as changed,
while two absent metas count as unchanged. -/
def amendedMetaChanged : Option Meta → Option Meta → Bool
  | some o, some n =>
    match o.hash, n.hash with
    | some oh, some nh => oh ≠ nh
    | _, _ => o.size ≠ n.size ∨ o.mtime ≠ n.mtime
  | none, none => false
  | _, _ => true

/-- Claim C5, counterexample: with both metas absent the source's
`_meta_changed` returns `False` (`if not old_meta and not new_meta: return
False`), while the claim's reading ("absence on either side counts as
changed") demands `True`. -/
theorem meta_changed_both_absent_counterexample :
    meta_changed none none = false ∧ claimMetaChanged none none = true := by
  decide

/-- Claim C5 (amended): `_meta_changed` compares hashes when both metas
carry a hash, otherwise compares `(size, mtime)`; absence of the meta on
exactly one side counts as changed, and two absent metas count as
unchanged. -/
theorem meta_changed_spec (o n : Option Meta) :
    meta_changed o n = amendedMetaChanged o n := by
  cases o <;> cases n <;> rfl

/-- A mapped CR→LF replacement leaves no CR byte behind. -/
theorem cr_not_mem_replaceCrWithLf (l : List Nat) : 13 ∉ replaceCrWithLf l := by
  intro h
  rcases List.mem_map.mp h with ⟨c, _, hc⟩
  by_cases h13 : c = 13 <;> simp [h13] at hc

/-- CRLF folding is the identity on CR-free byte strings. -/
theorem replaceCrlfWithLf_eq_self : ∀ l : List Nat, 13 ∉ l → replaceCrlfWithLf l = l
  | [], _ => by simp [replaceCrlfWithLf]
  | [c], _ => by simp [replaceCrlfWithLf]
  | c1 :: c2 :: rest, h => by
    have h1 : c1 ≠ 13 := by
      intro hc
      exact h (by simp [hc])
    have h2 : 13 ∉ c2 :: rest := fun hm => h (List.mem_cons_of_mem _ hm)
    rw [replaceCrlfWithLf, if_neg (by tauto), replaceCrlfWithLf_eq_self (c2 :: rest) h2]

/-- Lone-CR replacement is the identity on CR-free byte strings. -/
theorem replaceCrWithLf_eq_self (l : List Nat) (h : 13 ∉ l) :
    replaceCrWithLf l = l := by
  induction l with
  | nil => rfl
  | cons c rest ih =>
    have hc : c ≠ 13 := by
      intro hc
      exact h (by simp [hc])
    have hrest : 13 ∉ rest := fun hm => h (List.mem_cons_of_mem _ hm)
    simp [replaceCrWithLf, hc] at ih ⊢
    exact ih hrest

/-- LF expansion never returns the empty string on a non-empty input. -/
theorem replaceLfWithCrlf_ne_nil (c : Nat) (rest : List Nat) :
    replaceLfWithCrlf (c :: rest) ≠ [] := by
  by_cases h : c = 10 <;> simp [replaceLfWithCrlf, h]

/-- Folding CRLF after expanding LF recovers a CR-free byte string. -/
theorem replaceCrlfWithLf_replaceLfWithCrlf (l : List Nat) (h : 13 ∉ l) :
    replaceCrlfWithLf (replaceLfWithCrlf l) = l := by
  induction l with
  | nil => simp [replaceLfWithCrlf, replaceCrlfWithLf]
  | cons c rest ih =>
    have hc13 : c ≠ 13 := by
      intro hc
      exact h (by simp [hc])
    have hrest : 13 ∉ rest := fun hm => h (List.mem_cons_of_mem _ hm)
    by_cases hc : c = 10
    · subst hc
      rw [show replaceLfWithCrlf (10 :: rest) = 13 :: 10 :: replaceLfWithCrlf rest from by
            simp [replaceLfWithCrlf]]
      rw [show replaceCrlfWithLf (13 :: 10 :: replaceLfWithCrlf rest) =
            10 :: replaceCrlfWithLf (replaceLfWithCrlf rest) from by
            simp [replaceCrlfWithLf]]
      rw [ih hrest]
    · rw [show replaceLfWithCrlf (c :: rest) = c :: replaceLfWithCrlf rest from by
            simp [replaceLfWithCrlf, hc]]
      cases hr : replaceLfWithCrlf rest with
      | nil =>
        cases rest with
        | nil => simp [replaceCrlfWithLf]
        | cons d r2 => exact absurd hr (replaceLfWithCrlf_ne_nil d r2)
      | cons y ys =>
        rw [show replaceCrlfWithLf (c :: y :: ys) = c :: replaceCrlfWithLf (y :: ys) from by
              rw [replaceCrlfWithLf, if_neg (by tauto)]]
        rw [← hr, ih hrest]

/-- Claim C7: for every byte string and every EOL policy in
`{lf, crlf, keep}`, `_normalize_bytes` is idempotent:
`normalize(normalize(x, p), p) == normalize(x, p)`. -/
theorem normalize_bytes_idempotent (content : List Nat) (p : EolPolicy) :
    normalize_bytes (normalize_bytes content p) p = normalize_bytes content p := by
  cases p with
  | keep => rfl
  | lf =>
    simp only [normalize_bytes]
    have h13 : 13 ∉ replaceCrWithLf (replaceCrlfWithLf content) :=
      cr_not_mem_replaceCrWithLf _
    rw [replaceCrlfWithLf_eq_self _ h13, replaceCrWithLf_eq_self _ h13]
  | crlf =>
    simp only [normalize_bytes]
    have h13 : 13 ∉ replaceCrWithLf (replaceCrlfWithLf content) :=
      cr_not_mem_replaceCrWithLf _
    rw [replaceCrlfWithLf_replaceLfWithCrlf _ h13, replaceCrWithLf_eq_self _ h13]

/-- Claim C10: deleting or trashing an absent target is a no-op that
completes without raising: `SSHTransfer.delete_file` swallows
file-not-found, `LocalEndpoint.move_to_trash` performs no step when the
source is absent, and the one-way `_handle_delete` skips the unlink when
the target file is absent. -/
theorem absent_target_deletion_noop :
    sshDeleteFile .fileNotFound = .ok () ∧
    localMoveToTrashSteps false = [] ∧
    handleDeleteUnlinks false = false :=
  ⟨rfl, rfl, rfl⟩

/-- Claim C6: the path filter excludes a relative path if and only if some
path segment equals an internal trash/backup directory name, or some
exclude pattern glob-matches the basename, equals a segment verbatim, or
glob-matches the whole path, or the extension allow-list is non-empty and
the lowercased suffix is not in it — the extension comparison being the
only case-insensitive comparison (all globs run case-sensitively on the
POSIX host). -/
theorem path_filter_iff (internalDirs excludePatterns allowedExtensions : List String)
    (relPath : String) :
    pathFilterExcludes internalDirs excludePatterns allowedExtensions relPath = true ↔
    specPathExcluded internalDirs excludePatterns allowedExtensions relPath := by
  by_cases hall : allowedExtensions = []
  · subst hall
    simp [pathFilterExcludes, isExcludedInternal, should_exclude,
      should_include_extension, specPathExcluded, List.any_eq_true, or_assoc]
  · simp [pathFilterExcludes, isExcludedInternal, should_exclude,
      should_include_extension, specPathExcluded, List.any_eq_true, hall, or_assoc]

/-- Claim C9: a path missing from a remote poll scan produces a deletion
notice for the scanned side only when the state row already has evidence on
that side — a non-empty side meta, a side tombstone, or a side `seen_at`;
in particular a row known only from the other side is never tombstoned by a
scan. -/
theorem scan_missing_requires_evidence (snapshot : List (String × FileState))
    (side : Side) (seenPaths : List String) (p : String)
    (hp : p ∈ scanMissingDeletes snapshot side seenPaths) :
    ∃ st, (p, st) ∈ snapshot ∧ p ∉ seenPaths ∧
      ((st.meta side).isSome = true ∨ st.deleted side = true ∨
        (st.seenAt side).isSome = true) := by
  unfold scanMissingDeletes at hp
  rcases List.mem_map.mp hp with ⟨pr, hmem, hfst⟩
  rcases List.mem_filter.mp hmem with ⟨hin, hcond⟩
  rw [Bool.and_eq_true] at hcond
  rcases hcond with ⟨hseen, hev⟩
  refine ⟨pr.2, ?_, ?_, ?_⟩
  · rw [← hfst]
    exact hin
  · rw [← hfst]
    simp only [Bool.not_eq_true', List.contains_eq_any_beq, List.any_eq_true,
      not_exists] at hseen
    intro hmemSeen
    rw [List.any_eq_false] at hseen
    have hcontra := hseen pr.1 hmemSeen
    simp at hcontra
  · unfold missingEvidence at hev
    simp only [Bool.or_eq_true] at hev
    tauto

/-- Claim C3: when both `a_seen_at` and `b_seen_at` are later than
`last_sync_at`, `_prepare_sync_task` picks the side with the greater
`seen_at` as winner, and an exact tie goes to side A
(`a_seen_at >= b_seen_at` → `'a'`). -/
theorem both_changed_last_writer_wins (st : FileState) (ta tb : Nat)
    (ha : st.a_seen_at = some ta) (hb : st.b_seen_at = some tb)
    (haCh : seenChanged st.a_seen_at st.last_sync_at = true)
    (hbCh : seenChanged st.b_seen_at st.last_sync_at = true) :
    prepareSyncTask true (some st) =
      some ⟨if ta ≥ tb then Side.a else Side.b,
            if ta ≥ tb then Side.b else Side.a⟩ ∧
    (ta = tb → prepareSyncTask true (some st) = some ⟨Side.a, Side.b⟩) := by
  have hmain : prepareSyncTask true (some st) =
      some ⟨if ta ≥ tb then Side.a else Side.b,
            if ta ≥ tb then Side.b else Side.a⟩ := by
    rw [ha] at haCh
    rw [hb] at hbCh
    simp only [prepareSyncTask, ha, hb, haCh, hbCh]
    by_cases hge : ta ≥ tb <;> simp [hge, Side.other]
  refine ⟨hmain, fun hEq => ?_⟩
  rw [hmain, if_pos (le_of_eq hEq.symm), if_pos (le_of_eq hEq.symm)]

/-- Claim C4: the first-run baseline seeds, for each enumerated path, an
A-only row with `a_seen_at = now` and `b_deleted = true` followed by an
`a→b` sync (symmetric for B-only), and a both-sides row carrying exactly
the two enumerated metas — hash fields `none`, no content hash computed —
with `last_sync_at = now` and no sync call. -/
theorem initial_sync_seeds (aFiles bFiles : List (String × ListingMeta)) (now : Nat)
    (p : String) (st : FileState) (call : Option (Side × Side))
    (h : (p, st, call) ∈ initialSync aFiles bFiles now) :
    (∀ am, listLookup aFiles p = some am → listLookup bFiles p = none →
      st = ⟨some ⟨am.size, am.mtime, none⟩, none, false, true,
            some now, none, none, none⟩ ∧ call = some (Side.a, Side.b)) ∧
    (∀ bm, listLookup aFiles p = none → listLookup bFiles p = some bm →
      st = ⟨none, some ⟨bm.size, bm.mtime, none⟩, true, false,
            none, some now, none, none⟩ ∧ call = some (Side.b, Side.a)) ∧
    (∀ am bm, listLookup aFiles p = some am → listLookup bFiles p = some bm →
      st = ⟨some ⟨am.size, am.mtime, none⟩, some ⟨bm.size, bm.mtime, none⟩,
            false, false, some now, some now, none, some now⟩ ∧ call = none) := by
  unfold initialSync at h
  rcases List.mem_filterMap.mp h with ⟨q, hq, hopt⟩
  rcases Option.map_eq_some'.mp hopt with ⟨r, hr, hpr⟩
  have hqp : q = p := congrArg Prod.fst hpr
  subst hqp
  have hrval : r = (st, call) := congrArg Prod.snd hpr
  subst hrval
  refine ⟨?_, ?_, ?_⟩
  · intro am hA hB
    rw [hA, hB] at hr
    simp only [initialSeed, ListingMeta.toMeta, Option.some.injEq] at hr
    exact ⟨congrArg Prod.fst hr.symm, congrArg Prod.snd hr.symm⟩
  · intro bm hA hB
    rw [hA, hB] at hr
    simp only [initialSeed, ListingMeta.toMeta, Option.some.injEq] at hr
    exact ⟨congrArg Prod.fst hr.symm, congrArg Prod.snd hr.symm⟩
  · intro am bm hA hB
    rw [hA, hB] at hr
    simp only [initialSeed, ListingMeta.toMeta, Option.some.injEq] at hr
    exact ⟨congrArg Prod.fst hr.symm, congrArg Prod.snd hr.symm⟩

/-- The committed row stores the new loser meta. -/
theorem commitLoser_meta (st : FileState) (l : Side) (m : Option Meta) (d : Bool)
    (w : Side) (now : Nat) : (commitLoser st l m d w now).meta l = m := by
  cases l <;> rfl

/-- The committed row stores the new loser tombstone flag. -/
theorem commitLoser_deleted (st : FileState) (l : Side) (m : Option Meta) (d : Bool)
    (w : Side) (now : Nat) : (commitLoser st l m d w now).deleted l = d := by
  cases l <;> rfl

/-- The committed row stores `loser_seen_at = now`. -/
theorem commitLoser_seenAt (st : FileState) (l : Side) (m : Option Meta) (d : Bool)
    (w : Side) (now : Nat) : (commitLoser st l m d w now).seenAt l = some now := by
  cases l <;> rfl

/-- The ordering property claim C2 asserts of an effect trace: every
engine write (`copyFile`) or trash move is preceded by a suppression mark.
The accumulator records whether a mark has been seen so far. -/
def markSeenBefore : Bool → List Effect → Bool
  | _, [] => true
  | _, .markSuppressed _ _ :: rest => markSeenBefore true rest
  | seen, .copyFile _ :: rest => seen && markSeenBefore seen rest
  | seen, .moveToTrash _ :: rest => seen && markSeenBefore seen rest
  | seen, .backupFile _ :: rest => markSeenBefore seen rest

/-- Claim C2's ordering: a suppression mark precedes every write/trash. -/
def suppressedBeforeOps (l : List Effect) : Bool :=
  markSeenBefore false l

/-- The amended ordering: every write/trash on a path is immediately
followed by a suppression mark for the loser side and that same path. -/
def markFollowsOps (loser : Side) : List Effect → Bool
  | [] => true
  | .copyFile p :: rest =>
    match rest with
    | .markSuppressed s q :: r2 => (s == loser) && (q == p) && markFollowsOps loser r2
    | _ => false
  | .moveToTrash p :: rest =>
    match rest with
    | .markSuppressed s q :: r2 => (s == loser) && (q == p) && markFollowsOps loser r2
    | _ => false
  | _ :: rest => markFollowsOps loser rest

/-! Concrete inputs used by counterexamples and witnesses. -/

/-- A meta with a cached hash. -/
def exMetaH : Meta := ⟨4, 100, some "h1"⟩

/-- A row where both sides hold content-equivalent files (equal hashes) and
side A has an unreflected observation. -/
def c1State : FileState :=
  ⟨some exMetaH, some exMetaH, false, false, some 8, none, none, some 5⟩

/-- An environment where every endpoint call succeeds. -/
def okEnv : SyncEnv := ⟨.ok (), .ok (), .ok (), some ⟨4, 101⟩, some "h1"⟩

/-- A row where side A carries a fresh tombstone and side B still holds the
file. -/
def c2State : FileState :=
  ⟨none, some exMetaH, true, false, some 8, some 3, none, some 2⟩

/-- An environment whose `move_to_trash` call raises. -/
def errEnv : SyncEnv := ⟨.error "boom", .ok (), .ok (), none, none⟩

/-- Claim C1, counterexample: with the loser's meta content-equivalent to
the winner's (`_meta_changed` false), `_sync_side` still calls
`_copy_between` — a file write on the loser endpoint — because the copy at
line 947 is unconditional; only the backup is skipped. -/
theorem sync_equivalent_still_writes :
    meta_changed (c1State.meta Side.b) (c1State.meta Side.a) = false ∧
    Effect.copyFile "f.txt" ∈ (syncSide Side.a "f.txt" c1State okEnv 9).effects := by
  decide

/-- Claim C1 (amended): when the winner holds the file and the loser's meta
is content-equivalent, the engine skips the backup but still performs the
winner→loser copy, then refreshes the loser's stored meta, clears its
tombstone, sets its seen-at, and logs success. -/
theorem sync_equivalent_skips_backup (w : Side) (relPath : String) (st : FileState)
    (env : SyncEnv) (now : Nat)
    (hwdel : st.deleted w = false)
    (hlm : (st.meta w.other).isSome = true)
    (hldel : st.deleted w.other = false)
    (heq : meta_changed (st.meta w.other) (st.meta w) = false)
    (hcopy : env.copyResult = .ok ()) :
    (∀ q, Effect.backupFile q ∉ (syncSide w relPath st env now).effects) ∧
    Effect.copyFile relPath ∈ (syncSide w relPath st env now).effects ∧
    (syncSide w relPath st env now).state.meta w.other =
      finishLoserMeta env.newLoserMeta env.newHash ∧
    (syncSide w relPath st env now).state.deleted w.other = false ∧
    (syncSide w relPath st env now).state.seenAt w.other = some now ∧
    (syncSide w relPath st env now).log.status = "success" := by
  have hout : syncSide w relPath st env now =
      ⟨[.copyFile relPath, .markSuppressed w.other relPath],
       commitLoser st w.other (finishLoserMeta env.newLoserMeta env.newHash)
         false w now,
       ⟨"modified", relPath, "success", none⟩⟩ := by
    simp [syncSide, hwdel, heq, hcopy]
  refine ⟨?_, ?_, ?_, ?_, ?_, ?_⟩
  · intro q
    rw [hout]
    simp
  · rw [hout]
    simp
  · rw [hout]
    exact commitLoser_meta st w.other _ false w now
  · rw [hout]
    exact commitLoser_deleted st w.other _ false w now
  · rw [hout]
    exact commitLoser_seenAt st w.other _ false w now
  · rw [hout]

/-- Witness for the amended claim C1 at a concrete input. -/
theorem sync_equivalent_skips_backup_witness :
    (∀ q, Effect.backupFile q ∉ (syncSide Side.a "f.txt" c1State okEnv 9).effects) ∧
    Effect.copyFile "f.txt" ∈ (syncSide Side.a "f.txt" c1State okEnv 9).effects ∧
    (syncSide Side.a "f.txt" c1State okEnv 9).state.meta Side.a.other =
      finishLoserMeta okEnv.newLoserMeta okEnv.newHash ∧
    (syncSide Side.a "f.txt" c1State okEnv 9).state.deleted Side.a.other = false ∧
    (syncSide Side.a "f.txt" c1State okEnv 9).state.seenAt Side.a.other = some 9 ∧
    (syncSide Side.a "f.txt" c1State okEnv 9).log.status = "success" :=
  sync_equivalent_skips_backup Side.a "f.txt" c1State okEnv 9 rfl rfl rfl
    (by decide) rfl

/-- Claim C2, counterexample: in the trash branch of `_sync_side` the call
order is `loser_ep.move_to_trash(...)` (line 939) and only then
`_mark_suppressed(...)` (line 940) — the suppression mark is placed after
the filesystem operation, not immediately before it, so the claimed
ordering fails on this successful deletion sync. -/
theorem suppression_before_op_counterexample :
    suppressedBeforeOps (syncSide Side.a "g.txt" c2State okEnv 9).effects = false := by
  decide

/-- Claim C2 (amended): immediately after each completed engine-initiated
write or move-to-trash on the loser endpoint, `(loser, rel_path)` is marked
suppressed; the mark expires `2` seconds after it is placed; and every
incoming watcher notice (local or remote handler) for a currently
suppressed `(side, path)` is dropped without entering reconciliation. -/
theorem suppression_after_op_and_drop
    (w : Side) (relPath : String) (st : FileState) (env : SyncEnv) (now : Nat)
    (m : SuppressMap) (side : Side) (p : String) (t : Nat) (ev : EventKind)
    (relDest : Option String) (srcMeta destMeta mm : Option Meta)
    (henv : env.trashResult = .ok () ∧ env.backupResult = .ok () ∧
      env.copyResult = .ok ())
    (hsup : isSuppressed m side p t = true) :
    markFollowsOps w.other (syncSide w relPath st env now).effects = true ∧
    markSuppressed m side p t side p = some (t + suppressWindow) ∧
    suppressWindow = 2 ∧
    onLocalEvent m side t ev p relDest srcMeta destMeta = [] ∧
    onRemoteEvent m side t ev p mm = [] := by
  rcases henv with ⟨h1, h2, h3⟩
  refine ⟨?_, ?_, rfl, ?_, ?_⟩
  · simp only [syncSide, h1, h2, h3, ite_self]
    cases hwd : st.deleted w
    · by_cases hnb : ((st.meta w.other).isSome && !st.deleted w.other &&
        meta_changed (st.meta w.other) (st.meta w)) = true
      · simp [hnb, markFollowsOps]
      · simp only [Bool.not_eq_true] at hnb
        simp [hnb, markFollowsOps]
    · by_cases hl : (!st.deleted w.other && (st.meta w.other).isSome) = true
      · simp [hl, markFollowsOps]
      · simp only [Bool.not_eq_true] at hl
        simp [hl, markFollowsOps]
  · simp [markSuppressed]
  · simp [onLocalEvent, hsup]
  · simp [onRemoteEvent, hsup]

/-- A suppression map holding an unexpired entry for `(a, "f.txt")`. -/
def c2Map : SuppressMap :=
  fun s q => if s = Side.a ∧ q = "f.txt" then some 10 else none

/-- Witness for the amended claim C2 at concrete inputs. -/
theorem suppression_after_op_and_drop_witness :
    markFollowsOps Side.a.other (syncSide Side.a "g.txt" c2State okEnv 9).effects = true ∧
    markSuppressed c2Map Side.a "f.txt" 9 Side.a "f.txt" = some (9 + suppressWindow) ∧
    suppressWindow = 2 ∧
    onLocalEvent c2Map Side.a 9 EventKind.modified "f.txt" none (some exMetaH) none = [] ∧
    onRemoteEvent c2Map Side.a 9 EventKind.modified "f.txt" (some exMetaH) = [] :=
  suppression_after_op_and_drop Side.a "g.txt" c2State okEnv 9 c2Map Side.a "f.txt" 9
    EventKind.modified none (some exMetaH) none (some exMetaH)
    ⟨rfl, rfl, rfl⟩ (by decide)

/-- Claim C8: an error raised by the trash, backup, or transfer step inside
a dispatcher worker's `_sync_side` does not escape the worker: the function
returns with the file-state row exactly as it was and a `sync_logs` entry
with `status='failed'` carrying the error message, so a later observation
retries. -/
theorem sync_error_logged_row_unchanged (w : Side) (relPath : String)
    (st : FileState) (env : SyncEnv) (now : Nat) (e : String) :
    (st.deleted w = true → st.deleted w.other = false →
      (st.meta w.other).isSome = true → env.trashResult = .error e →
      (syncSide w relPath st env now).state = st ∧
      (syncSide w relPath st env now).log = ⟨"modified", relPath, "failed", some e⟩) ∧
    (st.deleted w = false →
      ((st.meta w.other).isSome && !st.deleted w.other &&
        meta_changed (st.meta w.other) (st.meta w)) = true →
      env.backupResult = .error e →
      (syncSide w relPath st env now).state = st ∧
      (syncSide w relPath st env now).log = ⟨"modified", relPath, "failed", some e⟩) ∧
    (st.deleted w = false → env.backupResult = .ok () → env.copyResult = .error e →
      (syncSide w relPath st env now).state = st ∧
      (syncSide w relPath st env now).log = ⟨"modified", relPath, "failed", some e⟩) := by
  refine ⟨fun h1 h2 h3 h4 => ?_, fun h1 h2 h3 => ?_, fun h1 h2 h3 => ?_⟩
  · simp [syncSide, h1, h2, h3, h4, failOutcome]
  · simp [syncSide, h1, h2, h3, failOutcome]
  · simp [syncSide, h1, h2, h3, failOutcome, ite_self]

/-- Witness for claim C8: a failing trash move on a concrete row. -/
theorem sync_error_logged_row_unchanged_witness :
    (syncSide Side.a "g.txt" c2State errEnv 9).state = c2State ∧
    (syncSide Side.a "g.txt" c2State errEnv 9).log =
      ⟨"modified", "g.txt", "failed", some "boom"⟩ :=
  (sync_error_logged_row_unchanged Side.a "g.txt" c2State errEnv 9 "boom").1
    rfl rfl rfl rfl

/-- A row whose two seen-ats (5 and 3) both exceed an unset `last_sync_at`. -/
def c3State : FileState :=
  ⟨some exMetaH, some exMetaH, false, false, some 5, some 3, none, none⟩

/-- Witness for claim C3: side A saw the later change and wins. -/
theorem both_changed_last_writer_wins_witness :
    prepareSyncTask true (some c3State) = some ⟨Side.a, Side.b⟩ := by
  have h := (both_changed_last_writer_wins c3State 5 3 rfl rfl
    (by decide) (by decide)).1
  rw [if_pos (by omega), if_pos (by omega)] at h
  exact h

/-- Witness for claim C4: a single A-only file is seeded and synced a→b. -/
theorem initial_sync_seeds_witness :
    (⟨some ⟨1, 2, none⟩, none, false, true, some 7, none, none, none⟩ : FileState) =
      ⟨some ⟨1, 2, none⟩, none, false, true, some 7, none, none, none⟩ ∧
    (some (Side.a, Side.b) : Option (Side × Side)) = some (Side.a, Side.b) :=
  (initial_sync_seeds [("x", ⟨1, 2⟩)] [] 7 "x"
      ⟨some ⟨1, 2, none⟩, none, false, true, some 7, none, none, none⟩
      (some (Side.a, Side.b)) (by decide)).1 ⟨1, 2⟩ rfl rfl

/-- A row with evidence only on side A (a bare `a_seen_at`). -/
def c9State : FileState :=
  ⟨none, none, false, false, some 5, none, none, none⟩

/-- Witness for claim C9: a missing path with side-A evidence is reported. -/
theorem scan_missing_requires_evidence_witness :
    ∃ st, ("x", st) ∈ [("x", c9State)] ∧ "x" ∉ ([] : List String) ∧
      ((st.meta Side.a).isSome = true ∨ st.deleted Side.a = true ∨
        (st.seenAt Side.a).isSome = true) :=
  scan_missing_requires_evidence [("x", c9State)] Side.a [] "x" (by decide)

end SyncFlow
